import Mathlib

/-!
simplegallery: credential and session core

A shallow embedding of `models/users.go` (the user service: password hashing
with a pepper, remember tokens, lookups) and of `middleware/require_user.go`
(the login gate), followed by the properties proved about them.

Conventions of the embedding

* A Go `error` is a value of `models.Error`; a `nil` error is `none`.
* A `*User` argument that the Go code mutates in place is passed in and handed
  back: every operation returns the record as the caller sees it afterwards.
* The database behind `*gorm.DB` is explicit state of an arbitrary type `σ`;
  the gorm calls the service makes are the fields of `gorm.DB σ`.
* bcrypt and the system entropy source are the fields of `models.Lib`.
* Every call to a collaborator is appended to a log of `Call`s, in program
  order, so that "is never attempted" and "exactly one" can be stated.
* `uint` identifiers are natural numbers: the service only compares them with
  zero and passes them on.
-/

set_option autoImplicit false

namespace gorm

/-- The embedded `gorm.Model`: primary key and the three timestamps. -/
structure Model where
  ID : Nat
  CreatedAt : Nat
  UpdatedAt : Nat
  DeletedAt : Option Nat
  deriving DecidableEq, Repr

end gorm

namespace models

/-- The error values the service distinguishes by identity, and every other
error (`other`). `ErrRecordNotFound` is gorm's sentinel,
`ErrMismatchedHashAndPassword` is bcrypt's. -/
inductive Error where
  | ErrorNotFound
  | ErrorInvalidID
  | ErrorInvalidPassword
  | ErrRecordNotFound
  | ErrMismatchedHashAndPassword
  | other (msg : String)
  deriving DecidableEq, Repr

/-- The `User` model of users.go. `Password` and `Remember` carry the tag
`gorm:"-"`: they are never written to the database. -/
structure User where
  Model : gorm.Model
  Name : String
  Email : String
  Password : String
  PasswordHash : String
  Remember : String
  RememberHash : String
  deriving DecidableEq, Repr

/-- The zero value of `User` (`var user User`). -/
def User.zero : User :=
  { Model := { ID := 0, CreatedAt := 0, UpdatedAt := 0, DeletedAt := none },
    Name := "", Email := "", Password := "", PasswordHash := "",
    Remember := "", RememberHash := "" }

def usPasswordPepper : String := "some-secret"

def hmacSecretKey : String := "hmac-secret"

/-- The value of `bcrypt.DefaultCost`. -/
def DefaultCost : Nat := 10

/-- The argument bound to the `?` of a `Where` condition. -/
inductive Arg where
  | str (s : String)
  | uint (n : Nat)
  deriving DecidableEq, Repr

/-- A query built by `db.Where(cond, arg)`. -/
structure Query where
  cond : String
  arg : Arg
  deriving DecidableEq, Repr

/-- One call to a collaborator, with its arguments. -/
inductive Call where
  | First (q : Query)
  | Create (user : User)
  | Save (user : User)
  | Delete (user : User)
  | GenerateFromPassword (password : String) (cost : Nat)
  | CompareHashAndPassword (hashedPassword password : String)
  | Hash (input : String)
  | RememberToken
  deriving DecidableEq, Repr

/-- Whether a call reaches the database. -/
def Call.isPersistence : Call → Bool
  | .First _ => true
  | .Create _ => true
  | .Save _ => true
  | .Delete _ => true
  | _ => false

/-- Whether a call is an insert. -/
def Call.isCreate : Call → Bool
  | .Create _ => true
  | _ => false

/-- Whether a call is a hash comparison. -/
def Call.isCompare : Call → Bool
  | .CompareHashAndPassword _ _ => true
  | _ => false

end models

namespace gorm

/-- The gorm calls of users.go over a database state `σ`.
`First s q dst` is `db.Where(q).First(&dst).Error` together with what `dst`
holds afterwards; `Create`, `Save` and `Delete` return the new database, the
record as gorm leaves it, and `.Error`. -/
structure DB (σ : Type) where
  First : σ → models.Query → models.User → models.User × Option models.Error
  Create : σ → models.User → σ × models.User × Option models.Error
  Save : σ → models.User → σ × models.User × Option models.Error
  Delete : σ → models.User → σ × Option models.Error

end gorm

namespace hash

/-- The `hash.HMAC` value built by `hash.NewHMAC(key)`: its `Hash` method. -/
structure HMAC where
  Hash : String → String

end hash

namespace rand

/-- The system entropy source as one call sees it: whether reading fails, and
the bytes it yields otherwise. -/
structure Source where
  err : Option models.Error
  byte : Nat → Nat

/-- The alphabet of the URL-safe base64 encoding. -/
def urlAlphabet : List Char :=
  "ABCDEFGHIJKLMNOPQRSTUVWXYZabcdefghijklmnopqrstuvwxyz0123456789-_".toList

def sextet (n : Nat) : Char := urlAlphabet.getD (n % 64) '='

/-- URL-safe base64 with padding, over bytes given as numbers below 256. -/
def EncodeToString : List Nat → List Char
  | [] => []
  | [a] => [sextet (a / 4), sextet (a % 4 * 16), '=', '=']
  | [a, b] => [sextet (a / 4), sextet (a % 4 * 16 + b / 16), sextet (b % 16 * 4), '=']
  | a :: b :: c :: rest =>
    sextet (a / 4) :: sextet (a % 4 * 16 + b / 16) :: sextet (b % 16 * 4 + c / 64)
      :: sextet (c % 64) :: EncodeToString rest

/-- Modelled from the spec: `rand.Bytes(n)`, which is not among the sources;
`n` bytes of the entropy source, or its failure. -/
def Bytes (src : Source) (n : Nat) : Except models.Error (List Nat) :=
  match src.err with
  | some e => .error e
  | none => .ok ((List.range n).map fun i => src.byte i % 256)

/-- The number of bytes of entropy in a remember token. -/
def RememberTokenBytes : Nat := 32

/-- Modelled from the spec: `rand.RememberToken()`, which is not among the
sources; "a token from a cryptographically secure random source, at least 32
bytes of entropy, encoded as a URL-safe printable string", failing when the
source fails. -/
def RememberToken (src : Source) : Except models.Error String :=
  match Bytes src RememberTokenBytes with
  | .error e => .error e
  | .ok b => .ok (String.mk (EncodeToString b))

end rand

namespace models

/-- The packages outside the service that users.go calls besides gorm: the two
bcrypt functions, and the entropy source under `rand.RememberToken`.
`GenerateFromPassword password cost` stands for one call, salt drawn. -/
structure Lib where
  GenerateFromPassword : String → Nat → Except Error String
  CompareHashAndPassword : String → String → Option Error
  entropy : rand.Source

/-- The `UserService` of users.go: the gorm handle and the HMAC. -/
structure UserService (σ : Type) where
  db : gorm.DB σ
  hmac : hash.HMAC

/-- What `ByID` and `ByEmail` return: `&user`, which is never `nil`, the error,
and the calls made. -/
structure Looked where
  user : User
  err : Option Error
  calls : List Call
  deriving DecidableEq, Repr

/-- What `Authenticate` and `ByRemember` return: the `*User` (`none` for
`nil`), the error, and the calls made. -/
structure Found where
  user : Option User
  err : Option Error
  calls : List Call
  deriving DecidableEq, Repr

/-- What a mutating operation returns: the error, the caller's record after the
call, the database after the call, and the calls made. -/
structure Ret (σ : Type) where
  err : Option Error
  user : User
  db : σ
  calls : List Call

variable {σ : Type}

/-- The `first` helper of users.go: gorm's record-not-found becomes
`ErrorNotFound`, every other outcome is passed on. -/
def first (db : gorm.DB σ) (s : σ) (q : Query) (dst : User) : User × Option Error :=
  let (dst, err) := db.First s q dst
  if err = some Error.ErrRecordNotFound then
    (dst, some Error.ErrorNotFound)
  else
    (dst, err)

def UserService.ByID (us : UserService σ) (s : σ) (id : Nat) : Looked :=
  let q : Query := { cond := "id = ?", arg := .uint id }
  let (user, err) := first us.db s q User.zero
  { user := user, err := err, calls := [.First q] }

def UserService.ByEmail (us : UserService σ) (s : σ) (email : String) : Looked :=
  let q : Query := { cond := "email = ?", arg := .str email }
  let (user, err) := first us.db s q User.zero
  { user := user, err := err, calls := [.First q] }

def UserService.Authenticate (lib : Lib) (us : UserService σ) (s : σ)
    (email password : String) : Found :=
  let found := us.ByEmail s email
  let userFound := found.user
  match found.err with
  | some err => { user := none, err := some err, calls := found.calls }
  | none =>
    let pw := password ++ usPasswordPepper
    let calls := found.calls ++ [.CompareHashAndPassword userFound.PasswordHash pw]
    match lib.CompareHashAndPassword userFound.PasswordHash pw with
    | some err =>
      if err = Error.ErrMismatchedHashAndPassword then
        { user := none, err := some Error.ErrorInvalidPassword, calls := calls }
      else
        { user := none, err := some err, calls := calls }
    | none => { user := some userFound, err := none, calls := calls }

def UserService.ByRemember (us : UserService σ) (s : σ) (token : String) : Found :=
  let rememberHash := us.hmac.Hash token
  let q : Query := { cond := "remember_hash = ?", arg := .str rememberHash }
  let (user, err) := first us.db s q User.zero
  match err with
  | some e => { user := none, err := some e, calls := [.Hash token, .First q] }
  | none => { user := some user, err := none, calls := [.Hash token, .First q] }

/-- Lines 107-114 of `Create`: a token is generated when `Remember` is empty,
and `RememberHash` is computed from `Remember`. On a failure of the generator
the record is returned as it stands. -/
def UserService.Create.remember (lib : Lib) (us : UserService σ) (user : User) :
    Option Error × User × List Call :=
  if user.Remember = "" then
    match rand.RememberToken lib.entropy with
    | .error err => (some err, user, [.RememberToken])
    | .ok token =>
      let user := { user with Remember := token }
      (none, { user with RememberHash := us.hmac.Hash user.Remember },
        [.RememberToken, .Hash user.Remember])
  else
    (none, { user with RememberHash := us.hmac.Hash user.Remember }, [.Hash user.Remember])

def UserService.Create (lib : Lib) (us : UserService σ) (s : σ) (user : User) :
    Ret σ :=
  let hashedPassword := user.Password ++ usPasswordPepper
  let gen := Call.GenerateFromPassword hashedPassword DefaultCost
  match lib.GenerateFromPassword hashedPassword DefaultCost with
  | .error err => { err := some err, user := user, db := s, calls := [gen] }
  | .ok hashedBytes =>
    let user := { user with PasswordHash := hashedBytes }
    let user := { user with Password := "" }
    match UserService.Create.remember lib us user with
    | (some err, user, calls) => { err := some err, user := user, db := s, calls := gen :: calls }
    | (none, user, calls) =>
      let (s, saved, err) := us.db.Create s user
      { err := err, user := saved, db := s, calls := gen :: calls ++ [.Create user] }

def UserService.Update (us : UserService σ) (s : σ) (user : User) : Ret σ :=
  if user.Remember ≠ "" then
    let user := { user with RememberHash := us.hmac.Hash user.Remember }
    let (s, saved, err) := us.db.Save s user
    { err := err, user := saved, db := s, calls := [.Hash user.Remember, .Save user] }
  else
    let (s, saved, err) := us.db.Save s user
    { err := err, user := saved, db := s, calls := [.Save user] }

/-- The result of `Delete`: the error, the database afterwards and the calls. -/
structure Deleted (σ : Type) where
  err : Option Error
  db : σ
  calls : List Call

def UserService.Delete (us : UserService σ) (s : σ) (id : Nat) : Deleted σ :=
  if id = 0 then
    { err := some Error.ErrorInvalidID, db := s, calls := [] }
  else
    let user : User := { User.zero with Model := { User.zero.Model with ID := id } }
    let (s, err) := us.db.Delete s user
    { err := err, db := s, calls := [.Delete user] }

end models

/-! ## A database keyed by id, email and remember hash

The store the service needs, as rows in insertion order with the unique
indexes of the `User` model (`id`, `email`, `remember_hash`). Only the columns
gorm writes are kept: `Password` and `Remember` are blank in every row.
`User` embeds `gorm.Model`, so a delete is a soft delete: the row stays in the
table with `deleted_at` set, queries no longer see it, and it keeps its unique
keys. Of the timestamps only `deleted_at` is maintained. -/

namespace memdb

open models

/-- The `users` table: the rows queries see, the rows marked deleted, the last
value of the id sequence, and the time the database reads on its clock. -/
structure MemDB where
  rows : List User
  deleted : List User
  seq : Nat
  clock : Nat
  deriving DecidableEq, Repr

def empty : MemDB := { rows := [], deleted := [], seq := 0, clock := 0 }

/-- Whether a row satisfies a `Where` condition of users.go. -/
def holds (q : Query) (row : User) : Bool :=
  match q.arg with
  | .uint n => q.cond == "id = ?" && row.Model.ID == n
  | .str v =>
    (q.cond == "email = ?" && row.Email == v) ||
      (q.cond == "remember_hash = ?" && row.RememberHash == v)

/-- The row written for a record: the persisted columns under the given id. -/
def row (u : User) (id : Nat) : User :=
  { u with Model := { u.Model with ID := id }, Password := "", Remember := "" }

/-- Whether a row would violate a unique index of the table. -/
def clash (rows : List User) (r : User) : Bool :=
  rows.any fun x =>
    x.Model.ID == r.Model.ID || x.Email == r.Email || x.RememberHash == r.RememberHash

def duplicateKey : Error := Error.other "duplicate key value violates unique constraint"

def First (s : MemDB) (q : Query) (dst : User) : User × Option Error :=
  match s.rows.find? (holds q) with
  | some r => (r, none)
  | none => (dst, some Error.ErrRecordNotFound)

/-- Insert: a record without id takes the next value of the sequence. The
unique indexes cover the rows marked deleted as well. -/
def Create (s : MemDB) (u : User) : MemDB × User × Option Error :=
  let id := if u.Model.ID = 0 then s.seq + 1 else u.Model.ID
  let seq := if u.Model.ID = 0 then s.seq + 1 else s.seq
  let r := row u id
  if clash (s.rows ++ s.deleted) r then
    ({ s with seq := seq }, u, some duplicateKey)
  else
    ({ s with rows := s.rows ++ [r], seq := seq },
      { u with Model := { u.Model with ID := id } }, none)

/-- Save: a record without id is inserted, one with an id replaces its row. -/
def Save (s : MemDB) (u : User) : MemDB × User × Option Error :=
  if u.Model.ID = 0 then
    Create s u
  else
    let others := (s.rows.filter fun x => x.Model.ID != u.Model.ID) ++ s.deleted
    let r := row u u.Model.ID
    if clash others r then
      (s, u, some duplicateKey)
    else if s.rows.any (fun x => x.Model.ID == u.Model.ID) then
      ({ s with rows := s.rows.map fun x => if x.Model.ID = u.Model.ID then r else x }, u, none)
    else
      ({ s with rows := s.rows ++ [r] }, u, none)

/-- Soft delete: the row with the record's id gets `deleted_at`, leaves the
rows queries see and stays in the table. -/
def Delete (s : MemDB) (u : User) : MemDB × Option Error :=
  let gone := s.rows.filter fun x => x.Model.ID == u.Model.ID
  ({ s with
      rows := s.rows.filter fun x => x.Model.ID != u.Model.ID,
      deleted := s.deleted ++
        gone.map fun x => { x with Model := { x.Model with DeletedAt := some s.clock } } },
    none)

/-- The store as a gorm handle. -/
def db : gorm.DB MemDB :=
  { First := First, Create := Create, Save := Save, Delete := Delete }

end memdb

/-! ## The HTTP side -/

namespace http

structure Cookie where
  Name : String
  Value : String
  deriving DecidableEq, Repr

/-- The part of `*http.Request` the middleware reads. -/
structure Request where
  Method : String
  Path : String
  Cookies : List Cookie
  deriving DecidableEq, Repr

/-- The call `r.Cookie(name)`: the first cookie of that name, `none` standing
for `http.ErrNoCookie`. -/
def Request.Cookie (r : Request) (name : String) : Option Cookie :=
  r.Cookies.find? fun c => c.Name == name

/-- What has been done to a response. -/
inductive Written where
  | Redirect (url : String) (code : Nat)
  | SetHeader (key value : String)
  | WriteHeader (code : Nat)
  | Write (body : String)
  deriving DecidableEq, Repr

/-- A response writer is known by what has been done to it, in order. -/
abbrev ResponseWriter := List Written

def StatusFound : Nat := 302

/-- The call `http.Redirect(w, r, url, code)`. -/
def Redirect (w : ResponseWriter) (_r : Request) (url : String) (code : Nat) : ResponseWriter :=
  w ++ [Written.Redirect url code]

/-- A handler acts on the response writer, given the request. -/
abbrev HandlerFunc := ResponseWriter → Request → ResponseWriter

structure Handler where
  ServeHTTP : HandlerFunc

end http

namespace middleware

open models http

structure RequireUser (σ : Type) where
  UserService : models.UserService σ

/-- One run of the handler `ApplyFn` returns: the response writer afterwards,
the arguments of every call of the wrapped handler, the lines printed by
`fmt.Println` (the text and the `*User` after it), and the calls the user
service made. -/
structure Served where
  w : ResponseWriter
  next : List (ResponseWriter × Request)
  stdout : List (String × Option User)
  calls : List Call
  deriving DecidableEq, Repr

variable {σ : Type}

def RequireUser.ApplyFn (mw : RequireUser σ) (s : σ) (next : HandlerFunc)
    (w : ResponseWriter) (r : Request) : Served :=
  match r.Cookie "remember_token" with
  | none =>
    { w := Redirect w r "/login" StatusFound, next := [], stdout := [], calls := [] }
  | some cookie =>
    let cookievalue := cookie.Value
    let found := mw.UserService.ByRemember s cookievalue
    let user := found.user
    match found.err with
    | some _ =>
      { w := Redirect w r "/login" StatusFound, next := [], stdout := [], calls := found.calls }
    | none =>
      { w := next w r, next := [(w, r)], stdout := [("User found: ", user)],
        calls := found.calls }

def RequireUser.Apply (mw : RequireUser σ) (s : σ) (next : Handler)
    (w : ResponseWriter) (r : Request) : Served :=
  mw.ApplyFn s next.ServeHTTP w r

end middleware

/-! ## Names used in the statements -/

namespace models

variable {σ : Type}

/-- The query `ByEmail` issues. -/
def emailQuery (email : String) : Query := { cond := "email = ?", arg := .str email }

/-- The query `ByRemember` issues for a remember hash. -/
def rememberQuery (rememberHash : String) : Query :=
  { cond := "remember_hash = ?", arg := .str rememberHash }

/-- The record `Delete` hands to gorm: a zero user carrying the id. -/
def deleteTarget (id : Nat) : User :=
  { User.zero with Model := { User.zero.Model with ID := id } }

/-- The record `Update` hands to gorm. -/
def updateTarget (us : UserService σ) (user : User) : User :=
  if user.Remember ≠ "" then { user with RememberHash := us.hmac.Hash user.Remember } else user

/-- The record as `Create` holds it once the password is hashed: the hash is
stored and the plaintext cleared (lines 104-105). -/
def hashed (user : User) (hashedBytes : String) : User :=
  { user with PasswordHash := hashedBytes, Password := "" }

/-- The calls `Create` makes before the insert, given the token on entry. -/
def issueCalls (user : User) (token : String) : List Call :=
  if user.Remember = "" then [.RememberToken, .Hash token] else [.Hash token]

/-- A record with the given remember token and the hash of that token. -/
def withRemember (us : UserService σ) (user : User) (token : String) : User :=
  { user with Remember := token, RememberHash := us.hmac.Hash token }

end models

/-! ## Sample collaborators

Concrete collaborators on which the definitions above evaluate. -/

namespace sample

open models

def passwordTooLong : Error := Error.other "bcrypt: password length exceeds 72 bytes"

def entropyError : Error := Error.other "rand: entropy source unavailable"

/-- A hash that refuses more than 72 bytes, as bcrypt does, and whose
comparison accepts exactly the input that was hashed. -/
def lib : Lib :=
  { GenerateFromPassword := fun password _ =>
      if password.utf8ByteSize > 72 then .error passwordTooLong
      else .ok ("$2a$10$" ++ password),
    CompareHashAndPassword := fun hashedPassword password =>
      if hashedPassword = "$2a$10$" ++ password then none
      else some Error.ErrMismatchedHashAndPassword,
    entropy := { err := none, byte := fun i => i } }

/-- The same library with an entropy source that fails. -/
def libRandFails : Lib :=
  { lib with entropy := { err := some entropyError, byte := fun _ => 0 } }

def hmac : hash.HMAC := { Hash := fun input => "hmac:" ++ input }

def us : UserService memdb.MemDB := { db := memdb.db, hmac := hmac }

def user : User :=
  { User.zero with Name := "A", Email := "a@b.com", Password := "secret123" }

/-- A user whose password, 70 bytes long, exceeds the limit once peppered. -/
def longUser : User :=
  { User.zero with
    Name := "B", Email := "b@b.com",
    Password := "0123456789012345678901234567890123456789012345678901234567890123456789" }

/-- A user who arrives with a remember token already set. -/
def tokenUser : User :=
  { User.zero with Name := "C", Email := "c@b.com", Password := "hunter2", Remember := "T0" }

/-- Another user with the same remember token. -/
def otherUser : User :=
  { User.zero with Name := "D", Email := "d@b.com", Password := "hunter3", Remember := "T0" }

/-- The store after `tokenUser` signed up. -/
def store : memdb.MemDB := (us.Create lib memdb.empty tokenUser).db

/-- The store after `user` and then `otherUser` signed up instead. -/
def otherStore : memdb.MemDB :=
  (us.Create lib (us.Create lib memdb.empty user).db otherUser).db

def mw : middleware.RequireUser memdb.MemDB := { UserService := us }

/-- A request that presents the token `T0`. -/
def request : http.Request :=
  { Method := "GET", Path := "/galleries",
    Cookies := [{ Name := "remember_token", Value := "T0" }] }

/-- A request without cookies. -/
def anonymous : http.Request := { Method := "GET", Path := "/galleries", Cookies := [] }

/-- A request that presents a token nobody holds. -/
def stale : http.Request :=
  { Method := "GET", Path := "/galleries",
    Cookies := [{ Name := "remember_token", Value := "gone" }] }

/-- A protected page. -/
def page : http.HandlerFunc :=
  fun w _ => w ++ [http.Written.WriteHeader 200, http.Written.Write "galleries"]

end sample

/-! ## Properties of the user service -/

namespace models

variable {σ : Type}

theorem ByEmail_eq (us : UserService σ) (s : σ) (email : String) :
    us.ByEmail s email =
      { user := (first us.db s (emailQuery email) User.zero).1,
        err := (first us.db s (emailQuery email) User.zero).2,
        calls := [.First (emailQuery email)] } := rfl

theorem first_fst (db : gorm.DB σ) (s : σ) (q : Query) (dst : User) :
    (first db s q dst).1 = (db.First s q dst).1 := by
  unfold first
  rcases db.First s q dst with ⟨u, e⟩
  by_cases h : e = some Error.ErrRecordNotFound <;> simp [h]

theorem first_snd (db : gorm.DB σ) (s : σ) (q : Query) (dst : User) :
    (first db s q dst).2 =
      if (db.First s q dst).2 = some Error.ErrRecordNotFound then some Error.ErrorNotFound
      else (db.First s q dst).2 := by
  unfold first
  rcases db.First s q dst with ⟨u, e⟩
  by_cases h : e = some Error.ErrRecordNotFound <;> simp [h]

/-- C2. `Authenticate` has exactly five outcomes, decided by what the lookup by
email and the hash comparison report: record-not-found becomes `ErrorNotFound`;
any other lookup error is returned unchanged; a mismatch becomes
`ErrorInvalidPassword`; any other comparison error is returned unchanged;
otherwise the found user is returned with no error. The user is `nil` whenever
an error is returned, and no comparison is made when the lookup failed. -/
theorem Authenticate_outcomes (lib : Lib) (us : UserService σ) (s : σ)
    (email password : String) :
    ((us.db.First s (emailQuery email) User.zero).2 = some Error.ErrRecordNotFound →
      us.Authenticate lib s email password =
        { user := none, err := some Error.ErrorNotFound,
          calls := [.First (emailQuery email)] }) ∧
    (∀ e, (us.db.First s (emailQuery email) User.zero).2 = some e →
      e ≠ Error.ErrRecordNotFound →
      us.Authenticate lib s email password =
        { user := none, err := some e, calls := [.First (emailQuery email)] }) ∧
    ((us.db.First s (emailQuery email) User.zero).2 = none →
      lib.CompareHashAndPassword (us.db.First s (emailQuery email) User.zero).1.PasswordHash
          (password ++ usPasswordPepper) = some Error.ErrMismatchedHashAndPassword →
      us.Authenticate lib s email password =
        { user := none, err := some Error.ErrorInvalidPassword,
          calls := [.First (emailQuery email),
            .CompareHashAndPassword (us.db.First s (emailQuery email) User.zero).1.PasswordHash
              (password ++ usPasswordPepper)] }) ∧
    ((us.db.First s (emailQuery email) User.zero).2 = none →
      ∀ e, lib.CompareHashAndPassword (us.db.First s (emailQuery email) User.zero).1.PasswordHash
          (password ++ usPasswordPepper) = some e →
      e ≠ Error.ErrMismatchedHashAndPassword →
      us.Authenticate lib s email password =
        { user := none, err := some e,
          calls := [.First (emailQuery email),
            .CompareHashAndPassword (us.db.First s (emailQuery email) User.zero).1.PasswordHash
              (password ++ usPasswordPepper)] }) ∧
    ((us.db.First s (emailQuery email) User.zero).2 = none →
      lib.CompareHashAndPassword (us.db.First s (emailQuery email) User.zero).1.PasswordHash
          (password ++ usPasswordPepper) = none →
      us.Authenticate lib s email password =
        { user := some (us.db.First s (emailQuery email) User.zero).1, err := none,
          calls := [.First (emailQuery email),
            .CompareHashAndPassword (us.db.First s (emailQuery email) User.zero).1.PasswordHash
              (password ++ usPasswordPepper)] }) ∧
    ((us.Authenticate lib s email password).err ≠ none →
      (us.Authenticate lib s email password).user = none) ∧
    ((us.db.First s (emailQuery email) User.zero).2 ≠ none →
      ∀ c ∈ (us.Authenticate lib s email password).calls, c.isCompare = false) := by
  have hu := first_fst us.db s (emailQuery email) User.zero
  have he := first_snd us.db s (emailQuery email) User.zero
  generalize hF : us.db.First s (emailQuery email) User.zero = looked at hu he
  obtain ⟨u, e⟩ := looked
  dsimp only at hu he ⊢
  refine ⟨?_, ?_, ?_, ?_, ?_, ?_, ?_⟩
  · intro h
    simp only [h, if_true] at he
    simp [UserService.Authenticate, ByEmail_eq, he]
  · intro x h hx
    have : ¬ (some x = some Error.ErrRecordNotFound) := by simpa using hx
    simp only [h, this, if_false] at he
    simp [UserService.Authenticate, ByEmail_eq, he]
  · intro h hc
    simp only [h] at he
    simp only [reduceCtorEq, if_false] at he
    simp [UserService.Authenticate, ByEmail_eq, he, hu, hc]
  · intro h x hc hx
    simp only [h] at he
    simp only [reduceCtorEq, if_false] at he
    simp [UserService.Authenticate, ByEmail_eq, he, hu, hc, hx]
  · intro h hc
    simp only [h] at he
    simp only [reduceCtorEq, if_false] at he
    simp [UserService.Authenticate, ByEmail_eq, he, hu, hc]
  · intro h
    simp only [UserService.Authenticate, ByEmail_eq] at h ⊢
    split at h
    · simp_all
    · split at h
      · split <;> simp_all
      · simp_all
  · intro h c hc
    have hne : (first us.db s (emailQuery email) User.zero).2 ≠ none := by
      rw [he]; split
      · simp
      · exact h
    simp only [UserService.Authenticate, ByEmail_eq] at hc
    split at hc
    · simp at hc; subst hc; rfl
    · rename_i heq; exact absurd heq hne

end models

namespace rand

theorem EncodeToString_ne_nil (b : List Nat) (h : b ≠ []) : EncodeToString b ≠ [] := by
  match b, h with
  | [_], _ => simp [EncodeToString]
  | [_, _], _ => simp [EncodeToString]
  | _ :: _ :: _ :: _, _ => simp [EncodeToString]

theorem RememberToken_ne_empty (src : Source) (token : String)
    (h : RememberToken src = .ok token) : token ≠ "" := by
  unfold RememberToken Bytes at h
  cases hs : src.err with
  | some e => simp [hs] at h
  | none =>
    simp only [hs, Except.ok.injEq] at h
    intro ht
    rw [ht] at h
    have hd := congrArg String.data h
    exact EncodeToString_ne_nil _ (by simp [RememberTokenBytes, List.range_succ]) hd

end rand

namespace models

variable {σ : Type}

theorem Create_of_error (lib : Lib) (us : UserService σ) (s : σ) (user : User) (e : Error)
    (h : lib.GenerateFromPassword (user.Password ++ usPasswordPepper) DefaultCost = .error e) :
    us.Create lib s user =
      { err := some e, user := user, db := s,
        calls := [.GenerateFromPassword (user.Password ++ usPasswordPepper) DefaultCost] } := by
  simp [UserService.Create, h]

theorem Create_of_token_error (lib : Lib) (us : UserService σ) (s : σ) (user : User)
    (hashedBytes : String) (e : Error)
    (h : lib.GenerateFromPassword (user.Password ++ usPasswordPepper) DefaultCost = .ok hashedBytes)
    (hr : user.Remember = "") (ht : rand.RememberToken lib.entropy = .error e) :
    us.Create lib s user =
      { err := some e, user := hashed user hashedBytes, db := s,
        calls := [.GenerateFromPassword (user.Password ++ usPasswordPepper) DefaultCost,
          .RememberToken] } := by
  simp [UserService.Create, UserService.Create.remember, h, hr, ht, hashed]

theorem Create_of_token (lib : Lib) (us : UserService σ) (s : σ) (user : User)
    (hashedBytes token : String)
    (h : lib.GenerateFromPassword (user.Password ++ usPasswordPepper) DefaultCost = .ok hashedBytes)
    (ht : user.Remember = "" → rand.RememberToken lib.entropy = .ok token)
    (hk : user.Remember ≠ "" → token = user.Remember) :
    us.Create lib s user =
      { err := (us.db.Create s (withRemember us (hashed user hashedBytes) token)).2.2,
        user := (us.db.Create s (withRemember us (hashed user hashedBytes) token)).2.1,
        db := (us.db.Create s (withRemember us (hashed user hashedBytes) token)).1,
        calls := .GenerateFromPassword (user.Password ++ usPasswordPepper) DefaultCost ::
          issueCalls user token ++ [.Create (withRemember us (hashed user hashedBytes) token)] } := by
  by_cases hr : user.Remember = ""
  · simp [UserService.Create, UserService.Create.remember, h, hr, ht hr, hashed, withRemember,
      issueCalls]
  · have := hk hr
    subst this
    simp [UserService.Create, UserService.Create.remember, h, hr, hashed, withRemember,
      issueCalls]

end models

namespace models

variable {σ : Type}

theorem issueCalls_no_persistence (user : User) (token : String) :
    (issueCalls user token).filter Call.isPersistence = [] := by
  unfold issueCalls
  split <;> simp [Call.isPersistence]

theorem issueCalls_no_create (user : User) (token : String) :
    (issueCalls user token).filter Call.isCreate = [] := by
  unfold issueCalls
  split <;> simp [Call.isCreate]

/-- C10. When password hashing fails, or when `Remember` is empty and token
generation fails, `Create` returns that failure and makes no database call: the
database is as it was and nothing is inserted. When hashing succeeds and a
token is at hand (generated, or set on entry), `Create` makes exactly one
database call, the insert of the record carrying that token, and returns the
error and the database of that insert unchanged. -/
theorem Create_aborts_or_inserts_once (lib : Lib) (us : UserService σ) (s : σ) (user : User) :
    (∀ e, lib.GenerateFromPassword (user.Password ++ usPasswordPepper) DefaultCost = .error e →
      (us.Create lib s user).err = some e ∧ (us.Create lib s user).db = s ∧
      (us.Create lib s user).calls.filter Call.isPersistence = []) ∧
    (∀ hashedBytes e,
      lib.GenerateFromPassword (user.Password ++ usPasswordPepper) DefaultCost = .ok hashedBytes →
      user.Remember = "" → rand.RememberToken lib.entropy = .error e →
      (us.Create lib s user).err = some e ∧ (us.Create lib s user).db = s ∧
      (us.Create lib s user).calls.filter Call.isPersistence = []) ∧
    (∀ hashedBytes token,
      lib.GenerateFromPassword (user.Password ++ usPasswordPepper) DefaultCost = .ok hashedBytes →
      (user.Remember = "" → rand.RememberToken lib.entropy = .ok token) →
      (user.Remember ≠ "" → token = user.Remember) →
      (us.Create lib s user).calls.filter Call.isPersistence =
        [.Create (withRemember us (hashed user hashedBytes) token)] ∧
      (us.Create lib s user).err =
        (us.db.Create s (withRemember us (hashed user hashedBytes) token)).2.2 ∧
      (us.Create lib s user).db =
        (us.db.Create s (withRemember us (hashed user hashedBytes) token)).1) := by
  refine ⟨?_, ?_, ?_⟩
  · intro e h
    rw [Create_of_error lib us s user e h]
    simp [Call.isPersistence]
  · intro hb e h hr ht
    rw [Create_of_token_error lib us s user hb e h hr ht]
    simp [Call.isPersistence]
  · intro hb token h ht hk
    rw [Create_of_token lib us s user hb token h ht hk]
    refine ⟨?_, rfl, rfl⟩
    simp [List.filter_cons, Call.isPersistence, issueCalls_no_persistence]

/-- C4. For every user for which hashing succeeds and a token is at hand
(generated when `Remember` was empty on entry, the one set on entry otherwise),
and a gorm that hands the record back without touching `Remember` and
`RememberHash`: after `Create` the caller's record has as `Remember` the
generated token, which is not empty, when `Remember` was empty on entry, and
the `Remember` of entry otherwise; `Create` makes exactly one insert, of a
record with that `Remember` and with `RememberHash` equal to `hmac.Hash` of it,
and returns what that insert leaves (record, database, error); and running the
remember step of `Create`, or of `Update`, again on the resulting record gives
back the same record, hence the same `Remember` and `RememberHash`, with no
token generated. -/
theorem Create_issues_remember (lib : Lib) (us : UserService σ) (s : σ) (user : User)
    (hashedBytes token : String)
    (h : lib.GenerateFromPassword (user.Password ++ usPasswordPepper) DefaultCost = .ok hashedBytes)
    (ht : user.Remember = "" → rand.RememberToken lib.entropy = .ok token)
    (hk : user.Remember ≠ "" → token = user.Remember)
    (hgorm : ∀ (t : σ) (u : User),
      (us.db.Create t u).2.1.Remember = u.Remember ∧
      (us.db.Create t u).2.1.RememberHash = u.RememberHash) :
    (user.Remember = "" → (us.Create lib s user).user.Remember = token ∧ token ≠ "") ∧
    (user.Remember ≠ "" → (us.Create lib s user).user.Remember = user.Remember) ∧
    (us.Create lib s user).user.RememberHash =
      us.hmac.Hash (us.Create lib s user).user.Remember ∧
    (∃ rec, (us.Create lib s user).calls.filter Call.isCreate = [.Create rec] ∧
      rec.Remember = (us.Create lib s user).user.Remember ∧
      rec.RememberHash = us.hmac.Hash rec.Remember ∧
      (us.Create lib s user).user = (us.db.Create s rec).2.1 ∧
      (us.Create lib s user).db = (us.db.Create s rec).1 ∧
      (us.Create lib s user).err = (us.db.Create s rec).2.2) ∧
    UserService.Create.remember lib us (us.Create lib s user).user =
      (none, (us.Create lib s user).user, [.Hash (us.Create lib s user).user.Remember]) ∧
    (us.Update (us.Create lib s user).db (us.Create lib s user).user).calls.filter
        Call.isPersistence = [.Save (us.Create lib s user).user] := by
  have hne : token ≠ "" := by
    by_cases hr : user.Remember = ""
    · exact rand.RememberToken_ne_empty _ _ (ht hr)
    · rw [hk hr]; exact hr
  have hR : (us.Create lib s user).user.Remember = token := by
    rw [Create_of_token lib us s user hashedBytes token h ht hk]
    exact (hgorm s _).1
  have hH : (us.Create lib s user).user.RememberHash = us.hmac.Hash token := by
    rw [Create_of_token lib us s user hashedBytes token h ht hk]
    exact (hgorm s _).2
  refine ⟨fun _ => ⟨hR, hne⟩, fun hr => by rw [hR]; exact hk hr, by rw [hH, hR], ?_, ?_, ?_⟩
  · refine ⟨withRemember us (hashed user hashedBytes) token, ?_, ?_, rfl, ?_, ?_, ?_⟩
    · rw [Create_of_token lib us s user hashedBytes token h ht hk]
      simp [List.filter_cons, Call.isCreate, issueCalls_no_create]
    · rw [hR]; rfl
    all_goals rw [Create_of_token lib us s user hashedBytes token h ht hk]
  · generalize (us.Create lib s user).user = u at hR hH
    have hu : u.Remember ≠ "" := by rw [hR]; exact hne
    have : ({ u with RememberHash := us.hmac.Hash u.Remember } : User) = u := by
      cases u
      simp only at hR hH
      simp [hR, hH]
    simp only [UserService.Create.remember, hu, if_false]
    rw [this]
  · generalize (us.Create lib s user).db = d
    generalize (us.Create lib s user).user = u at hR hH
    have hu : u.Remember ≠ "" := by rw [hR]; exact hne
    have : ({ u with RememberHash := us.hmac.Hash u.Remember } : User) = u := by
      cases u
      simp only at hR hH
      simp [hR, hH]
    simp [UserService.Update, hu, Call.isPersistence, this]

end models

namespace models

variable {σ : Type}

/-- C3, as amended. When hashing fails, `Create` returns the hashing error and
the record exactly as it was passed, plaintext password included. When hashing
succeeds, with a gorm that hands the record back without touching `Password`
and `PasswordHash`, and a hash that is one-way in that it never returns an
initial segment of its input: the caller's record has an empty `Password`
whatever `Create` returns afterwards; its `PasswordHash`, and that of every
record `Create` inserts, is the hash returned for `Password` followed by the
pepper; and that `PasswordHash` is never equal to the plaintext password. -/
theorem Create_clears_password_once_hashed (lib : Lib) (us : UserService σ) (s : σ)
    (user : User)
    (hgorm : ∀ (t : σ) (u : User),
      (us.db.Create t u).2.1.Password = u.Password ∧
      (us.db.Create t u).2.1.PasswordHash = u.PasswordHash)
    (honeway : ∀ (p : String) (cost : Nat) (hashedBytes : String),
      lib.GenerateFromPassword p cost = .ok hashedBytes → ¬ hashedBytes.data <+: p.data) :
    (∀ e, lib.GenerateFromPassword (user.Password ++ usPasswordPepper) DefaultCost = .error e →
      (us.Create lib s user).err = some e ∧ (us.Create lib s user).user = user) ∧
    (∀ hashedBytes,
      lib.GenerateFromPassword (user.Password ++ usPasswordPepper) DefaultCost = .ok hashedBytes →
      (us.Create lib s user).user.Password = "" ∧
      (us.Create lib s user).user.PasswordHash = hashedBytes ∧
      (us.Create lib s user).user.PasswordHash ≠ user.Password ∧
      (∀ rec, Call.Create rec ∈ (us.Create lib s user).calls →
        rec.Password = "" ∧ rec.PasswordHash = hashedBytes ∧
        rec.PasswordHash ≠ user.Password)) := by
  refine ⟨?_, ?_⟩
  · intro e h
    rw [Create_of_error lib us s user e h]
    exact ⟨rfl, rfl⟩
  · intro hb h
    have hne : hb ≠ user.Password := by
      intro heq
      apply honeway _ _ _ h
      rw [heq, String.data_append]
      exact List.prefix_append _ _
    have key : (us.Create lib s user).user.Password = "" ∧
        (us.Create lib s user).user.PasswordHash = hb ∧
        (∀ rec, Call.Create rec ∈ (us.Create lib s user).calls →
          rec.Password = "" ∧ rec.PasswordHash = hb) := by
      by_cases hr : user.Remember = ""
      · cases htok : rand.RememberToken lib.entropy with
        | error e =>
          rw [Create_of_token_error lib us s user hb e h hr htok]
          refine ⟨rfl, rfl, ?_⟩
          intro rec hrec
          simp at hrec
        | ok token =>
          rw [Create_of_token lib us s user hb token h (fun _ => htok) (fun hn => absurd hr hn)]
          refine ⟨(hgorm s _).1, (hgorm s _).2, ?_⟩
          intro rec hrec
          simp [issueCalls, hr] at hrec
          subst hrec
          exact ⟨rfl, rfl⟩
      · rw [Create_of_token lib us s user hb user.Remember h (fun hn => absurd hn hr)
          (fun _ => rfl)]
        refine ⟨(hgorm s _).1, (hgorm s _).2, ?_⟩
        intro rec hrec
        simp [issueCalls, hr] at hrec
        subst hrec
        exact ⟨rfl, rfl⟩
    refine ⟨key.1, key.2.1, by rw [key.2.1]; exact hne, ?_⟩
    intro rec hrec
    obtain ⟨h1, h2⟩ := key.2.2 rec hrec
    exact ⟨h1, h2, by rw [h2]; exact hne⟩

end models

/-! ## Properties of the login gate -/

namespace middleware

open models http

variable {σ : Type}

/-- C6. For every request, response writer and wrapped handler: when the
request carries no `remember_token` cookie, or `ByRemember` on the cookie's
value returns an error, the handler built by `ApplyFn` (and by `Apply`) does
one thing to the response writer, `http.Redirect` to `/login` with status 302,
never calls the wrapped handler and prints nothing. -/
theorem ApplyFn_redirects_to_login (mw : RequireUser σ) (s : σ) (next : HandlerFunc)
    (w : ResponseWriter) (r : Request)
    (h : r.Cookie "remember_token" = none ∨
      ∃ cookie, r.Cookie "remember_token" = some cookie ∧
        (mw.UserService.ByRemember s cookie.Value).err ≠ none) :
    (mw.ApplyFn s next w r).w = w ++ [Written.Redirect "/login" 302] ∧
    (mw.ApplyFn s next w r).next = [] ∧
    (mw.ApplyFn s next w r).stdout = [] ∧
    mw.Apply s { ServeHTTP := next } w r = mw.ApplyFn s next w r := by
  refine ⟨?_, ?_, ?_, rfl⟩ <;>
  · rcases h with h | ⟨cookie, hc, herr⟩
    · simp [RequireUser.ApplyFn, h, Redirect, StatusFound]
    · cases he : (mw.UserService.ByRemember s cookie.Value).err with
      | none => exact absurd he herr
      | some e => simp [RequireUser.ApplyFn, hc, he, Redirect, StatusFound]

/-- C7, as amended. For every request whose `remember_token` cookie resolves
through `ByRemember` to a user, the handler built by `ApplyFn` calls the wrapped
handler exactly once, with the response writer and the request it received
itself, both unchanged; the response is what the wrapped handler makes of them,
with no redirect added; and the resolved user goes to `fmt.Println` only. -/
theorem ApplyFn_admits_resolved (mw : RequireUser σ) (s : σ) (next : HandlerFunc)
    (w : ResponseWriter) (r : Request) (cookie : Cookie) (user : User)
    (hc : r.Cookie "remember_token" = some cookie)
    (hu : (mw.UserService.ByRemember s cookie.Value).user = some user)
    (he : (mw.UserService.ByRemember s cookie.Value).err = none) :
    (mw.ApplyFn s next w r).next = [(w, r)] ∧
    (mw.ApplyFn s next w r).w = next w r ∧
    (mw.ApplyFn s next w r).stdout = [("User found: ", some user)] := by
  simp [RequireUser.ApplyFn, hc, he, hu]

end middleware

/-! ## The keyed store -/

namespace memdb

open models

theorem holds_emailQuery (email : String) (x : User) :
    holds (emailQuery email) x = (x.Email == email) := by
  simp [holds, emailQuery]

theorem holds_rememberQuery (rememberHash : String) (x : User) :
    holds (rememberQuery rememberHash) x = (x.RememberHash == rememberHash) := by
  simp [holds, rememberQuery]

/-- The id under which `Create` files a record. -/
theorem Create_ok (s : MemDB) (u : User) (h : (Create s u).2.2 = none) :
    ∃ id, clash (s.rows ++ s.deleted) (row u id) = false ∧
      (Create s u).1.rows = s.rows ++ [row u id] ∧
      (Create s u).2.1 = { u with Model := { u.Model with ID := id } } := by
  unfold Create at h ⊢
  refine ⟨if u.Model.ID = 0 then s.seq + 1 else u.Model.ID, ?_⟩
  by_cases hc : clash (s.rows ++ s.deleted)
      (row u (if u.Model.ID = 0 then s.seq + 1 else u.Model.ID)) = true
  · simp [hc, duplicateKey] at h
  · simp [hc]

theorem find_email_of_no_clash (rows rest : List User) (r : User)
    (h : clash (rows ++ rest) r = false) :
    (rows ++ [r]).find? (holds (emailQuery r.Email)) = some r := by
  have hnone : rows.find? (holds (emailQuery r.Email)) = none := by
    rw [List.find?_eq_none]
    intro x hx
    rw [holds_emailQuery]
    unfold clash at h
    rw [List.any_eq_false] at h
    have := h x (List.mem_append_left rest hx)
    simp at this ⊢
    exact this.1.2
  rw [List.find?_append, hnone]
  simp [holds_emailQuery]

theorem find_remember_of_no_clash (rows rest : List User) (r : User)
    (h : clash (rows ++ rest) r = false) :
    (rows ++ [r]).find? (holds (rememberQuery r.RememberHash)) = some r := by
  have hnone : rows.find? (holds (rememberQuery r.RememberHash)) = none := by
    rw [List.find?_eq_none]
    intro x hx
    rw [holds_rememberQuery]
    unfold clash at h
    rw [List.any_eq_false] at h
    have := h x (List.mem_append_left rest hx)
    simp at this ⊢
    exact this.2
  rw [List.find?_append, hnone]
  simp [holds_rememberQuery]

end memdb

namespace models

variable {σ : Type}

theorem Authenticate_of_found (lib : Lib) (us : UserService σ) (s : σ) (email password : String)
    (u : User) (h : us.db.First s (emailQuery email) User.zero = (u, none)) :
    us.Authenticate lib s email password =
      match lib.CompareHashAndPassword u.PasswordHash (password ++ usPasswordPepper) with
      | some err =>
        { user := none,
          err := some (if err = Error.ErrMismatchedHashAndPassword then
            Error.ErrorInvalidPassword else err),
          calls := [.First (emailQuery email),
            .CompareHashAndPassword u.PasswordHash (password ++ usPasswordPepper)] }
      | none =>
        { user := some u, err := none,
          calls := [.First (emailQuery email),
            .CompareHashAndPassword u.PasswordHash (password ++ usPasswordPepper)] } := by
  have h1 : first us.db s (emailQuery email) User.zero = (u, none) := by
    unfold first; rw [h]; simp
  simp only [UserService.Authenticate, ByEmail_eq, h1]
  cases lib.CompareHashAndPassword u.PasswordHash (password ++ usPasswordPepper) with
  | none => simp
  | some e => by_cases he : e = Error.ErrMismatchedHashAndPassword <;> simp [he]

theorem ByRemember_of_found (us : UserService σ) (s : σ) (token : String) (u : User)
    (h : us.db.First s (rememberQuery (us.hmac.Hash token)) User.zero = (u, none)) :
    us.ByRemember s token =
      { user := some u, err := none,
        calls := [.Hash token, .First (rememberQuery (us.hmac.Hash token))] } := by
  have h1 : first us.db s (rememberQuery (us.hmac.Hash token)) User.zero = (u, none) := by
    unfold first; rw [h]; simp
  unfold UserService.ByRemember
  unfold rememberQuery at h1
  simp [h1, rememberQuery]

theorem ByRemember_of_missing (us : UserService σ) (s : σ) (token : String) (u : User)
    (h : us.db.First s (rememberQuery (us.hmac.Hash token)) User.zero =
      (u, some Error.ErrRecordNotFound)) :
    us.ByRemember s token =
      { user := none, err := some Error.ErrorNotFound,
        calls := [.Hash token, .First (rememberQuery (us.hmac.Hash token))] } := by
  have h1 : first us.db s (rememberQuery (us.hmac.Hash token)) User.zero =
      (u, some Error.ErrorNotFound) := by
    unfold first; rw [h]; simp
  unfold UserService.ByRemember
  unfold rememberQuery at h1
  simp [h1, rememberQuery]

theorem string_append_right_cancel (a b c : String) (h : a ++ c = b ++ c) : a = b := by
  have := congrArg String.data h
  simp only [String.data_append] at this
  exact String.ext (List.append_cancel_right this)

/-- What a successful `Create` over the keyed store leaves behind. -/
theorem Create_memdb_ok (lib : Lib) (hmac : hash.HMAC) (s : memdb.MemDB) (user : User)
    (hok : (UserService.Create lib { db := memdb.db, hmac := hmac } s user).err = none) :
    ∃ hashedBytes token id,
      lib.GenerateFromPassword (user.Password ++ usPasswordPepper) DefaultCost = .ok hashedBytes ∧
      token ≠ "" ∧
      memdb.clash (s.rows ++ s.deleted) (memdb.row
        (withRemember { db := memdb.db, hmac := hmac } (hashed user hashedBytes) token) id) = false ∧
      (UserService.Create lib { db := memdb.db, hmac := hmac } s user).db.rows =
        s.rows ++ [memdb.row
          (withRemember { db := memdb.db, hmac := hmac } (hashed user hashedBytes) token) id] ∧
      (UserService.Create lib { db := memdb.db, hmac := hmac } s user).user =
        { withRemember { db := memdb.db, hmac := hmac } (hashed user hashedBytes) token with
          Model := { user.Model with ID := id } } := by
  cases hg : lib.GenerateFromPassword (user.Password ++ usPasswordPepper) DefaultCost with
  | error e => rw [Create_of_error lib _ s user e hg] at hok; simp at hok
  | ok hb =>
    have key : ∃ token, token ≠ "" ∧ (user.Remember = "" → rand.RememberToken lib.entropy = .ok token) ∧
        (user.Remember ≠ "" → token = user.Remember) := by
      by_cases hr : user.Remember = ""
      · cases ht : rand.RememberToken lib.entropy with
        | error e => rw [Create_of_token_error lib _ s user hb e hg hr ht] at hok; simp at hok
        | ok token =>
          exact ⟨token, rand.RememberToken_ne_empty _ _ ht, fun _ => rfl, fun hn => absurd hr hn⟩
      · exact ⟨user.Remember, hr, fun hn => absurd hn hr, fun _ => rfl⟩
    obtain ⟨token, hne, ht, hk⟩ := key
    rw [Create_of_token lib _ s user hb token hg ht hk] at hok ⊢
    obtain ⟨id, hcl, hrows, huser⟩ := memdb.Create_ok s _ hok
    exact ⟨hb, token, id, rfl, hne, hcl, hrows, huser⟩

end models

namespace models

/-- C1. Over the store keyed by email and a hash whose comparison accepts
exactly the input that was hashed (and reports every other input as a
mismatch): whenever `Create(user)` succeeds, `Authenticate` with the user's
email and password succeeds on the resulting store and returns that user, the
record `Create` left with the caller, read back from the store (so without the
plaintext token, which is not stored); and with any other password it fails
with `ErrorInvalidPassword` and a `nil` user. -/
theorem Authenticate_after_Create (lib : Lib) (hmac : hash.HMAC) (s : memdb.MemDB) (user : User)
    (hbcrypt : ∀ p hashedBytes, lib.GenerateFromPassword p DefaultCost = .ok hashedBytes →
      ∀ q, lib.CompareHashAndPassword hashedBytes q =
        if q = p then none else some Error.ErrMismatchedHashAndPassword)
    (hok : (UserService.Create lib { db := memdb.db, hmac := hmac } s user).err = none) :
    (UserService.Authenticate lib { db := memdb.db, hmac := hmac }
        (UserService.Create lib { db := memdb.db, hmac := hmac } s user).db
        user.Email user.Password).err = none ∧
    (UserService.Authenticate lib { db := memdb.db, hmac := hmac }
        (UserService.Create lib { db := memdb.db, hmac := hmac } s user).db
        user.Email user.Password).user =
      some { (UserService.Create lib { db := memdb.db, hmac := hmac } s user).user with
        Remember := "" } ∧
    ∀ other, other ≠ user.Password →
      (UserService.Authenticate lib { db := memdb.db, hmac := hmac }
          (UserService.Create lib { db := memdb.db, hmac := hmac } s user).db
          user.Email other).err = some Error.ErrorInvalidPassword ∧
      (UserService.Authenticate lib { db := memdb.db, hmac := hmac }
          (UserService.Create lib { db := memdb.db, hmac := hmac } s user).db
          user.Email other).user = none := by
  obtain ⟨hb, token, id, hg, _, hcl, hrows, huser⟩ := Create_memdb_ok lib hmac s user hok
  have hfind := memdb.find_email_of_no_clash _ _ _ hcl
  have hF : ∀ password, UserService.Authenticate lib { db := memdb.db, hmac := hmac }
      (UserService.Create lib { db := memdb.db, hmac := hmac } s user).db user.Email password =
      _ := fun password =>
    Authenticate_of_found lib { db := memdb.db, hmac := hmac } _ user.Email password
      (memdb.row (withRemember { db := memdb.db, hmac := hmac } (hashed user hb) token) id)
      (by
        show memdb.First _ _ _ = _
        unfold memdb.First
        rw [hrows]
        have : (memdb.row (withRemember { db := memdb.db, hmac := hmac } (hashed user hb) token)
          id).Email = user.Email := rfl
        rw [this] at hfind
        rw [hfind])
  have hcmp := hbcrypt _ hb hg
  have hhash : (memdb.row (withRemember { db := memdb.db, hmac := hmac } (hashed user hb) token)
      id).PasswordHash = hb := rfl
  refine ⟨?_, ?_, ?_⟩
  · rw [hF, hhash, hcmp]; simp
  · rw [hF, hhash, hcmp, huser]; simp [memdb.row, withRemember, hashed]
  · intro other hne
    have hneq : ¬ (other ++ usPasswordPepper = user.Password ++ usPasswordPepper) :=
      fun h => hne (string_append_right_cancel _ _ _ h)
    rw [hF, hhash, hcmp]
    simp [hneq]

end models

namespace memdb

open models

theorem find_remember_none (rows : List User) (rememberHash : String)
    (h : ∀ x ∈ rows, x.RememberHash ≠ rememberHash) :
    rows.find? (holds (rememberQuery rememberHash)) = none := by
  rw [List.find?_eq_none]
  intro x hx
  rw [holds_rememberQuery]
  simpa using h x hx

end memdb

namespace models

/-- C5. Over the store keyed by remember hash and an HMAC without collisions,
where `issued` holds the tokens behind the rows of the store: whenever
`Create(user)` succeeds, leaving the caller with token `T`, `ByRemember(T)` on
the resulting store returns that user, the record `Create` left with the
caller, read back from the store (so without the plaintext token, which is not
stored), with no error; and for every string different from `T` and from every
issued token, `ByRemember` fails with `ErrorNotFound` and a `nil` user. -/
theorem ByRemember_after_Create (lib : Lib) (hmac : hash.HMAC) (s : memdb.MemDB) (user : User)
    (issued : List String)
    (hinj : Function.Injective hmac.Hash)
    (hissued : ∀ x ∈ s.rows, ∃ t ∈ issued, x.RememberHash = hmac.Hash t)
    (hok : (UserService.Create lib { db := memdb.db, hmac := hmac } s user).err = none) :
    (UserService.ByRemember { db := memdb.db, hmac := hmac }
        (UserService.Create lib { db := memdb.db, hmac := hmac } s user).db
        (UserService.Create lib { db := memdb.db, hmac := hmac } s user).user.Remember).err
      = none ∧
    (UserService.ByRemember { db := memdb.db, hmac := hmac }
        (UserService.Create lib { db := memdb.db, hmac := hmac } s user).db
        (UserService.Create lib { db := memdb.db, hmac := hmac } s user).user.Remember).user
      = some { (UserService.Create lib { db := memdb.db, hmac := hmac } s user).user with
          Remember := "" } ∧
    ∀ other,
      other ≠ (UserService.Create lib { db := memdb.db, hmac := hmac } s user).user.Remember →
      other ∉ issued →
      (UserService.ByRemember { db := memdb.db, hmac := hmac }
          (UserService.Create lib { db := memdb.db, hmac := hmac } s user).db other).err
        = some Error.ErrorNotFound ∧
      (UserService.ByRemember { db := memdb.db, hmac := hmac }
          (UserService.Create lib { db := memdb.db, hmac := hmac } s user).db other).user
        = none := by
  obtain ⟨hb, token, id, _, _, hcl, hrows, huser⟩ := Create_memdb_ok lib hmac s user hok
  have hfind := memdb.find_remember_of_no_clash _ _ _ hcl
  have htok : (UserService.Create lib { db := memdb.db, hmac := hmac } s user).user.Remember
      = token := by rw [huser]; rfl
  have hF := ByRemember_of_found { db := memdb.db, hmac := hmac }
    (UserService.Create lib { db := memdb.db, hmac := hmac } s user).db token
    (memdb.row (withRemember { db := memdb.db, hmac := hmac } (hashed user hb) token) id)
    (by
      show memdb.First _ _ _ = _
      unfold memdb.First
      rw [hrows]
      have : (memdb.row (withRemember { db := memdb.db, hmac := hmac } (hashed user hb) token)
        id).RememberHash = hmac.Hash token := rfl
      rw [this] at hfind
      rw [hfind])
  refine ⟨?_, ?_, ?_⟩
  · rw [htok, hF]
  · rw [htok, hF, huser]; simp [memdb.row, withRemember, hashed]
  · intro other hne hnot
    rw [htok] at hne
    have hno : ∀ x ∈ (UserService.Create lib { db := memdb.db, hmac := hmac } s user).db.rows,
        x.RememberHash ≠ hmac.Hash other := by
      intro x hx heq
      rw [hrows, List.mem_append, List.mem_singleton] at hx
      rcases hx with hx | hx
      · obtain ⟨t, ht, hxt⟩ := hissued x hx
        have : t = other := hinj (hxt.symm.trans heq)
        exact hnot (this ▸ ht)
      · subst hx
        exact hne (hinj heq).symm
    have hM := ByRemember_of_missing { db := memdb.db, hmac := hmac }
      (UserService.Create lib { db := memdb.db, hmac := hmac } s user).db other User.zero
      (by
        show memdb.First _ _ _ = _
        unfold memdb.First
        rw [memdb.find_remember_none _ _ hno])
    rw [hM]
    exact ⟨rfl, rfl⟩

end models


namespace models

variable {σ : Type}

/-- C8. `Delete(0)` returns `ErrorInvalidID`, leaves the database as it was and
makes no call at all; for every other id `Delete` makes exactly one call, the
gorm delete of the record with that id, and returns that call's error and
database unchanged. -/
theorem Delete_zero_or_one_call (us : UserService σ) (s : σ) (id : Nat) :
    ((us.Delete s 0).err = some Error.ErrorInvalidID ∧ (us.Delete s 0).db = s ∧
      (us.Delete s 0).calls = []) ∧
    (id ≠ 0 →
      (us.Delete s id).calls = [.Delete (deleteTarget id)] ∧
      (deleteTarget id).Model.ID = id ∧
      (us.Delete s id).err = (us.db.Delete s (deleteTarget id)).2 ∧
      (us.Delete s id).db = (us.db.Delete s (deleteTarget id)).1) := by
  refine ⟨⟨rfl, rfl, rfl⟩, ?_⟩
  intro h
  simp [UserService.Delete, h, deleteTarget]

/-- C9. `Update` hands to gorm's `Save`, in its only database call, the record
it was given with `RememberHash` replaced by `hmac.Hash(Remember)` when
`Remember` is not empty and left as it was when `Remember` is empty; every
other field, in both cases, is the one passed in; and `Update` returns the
error and the database of that `Save`. -/
theorem Update_frame (us : UserService σ) (s : σ) (user : User) :
    (us.Update s user).calls.filter Call.isPersistence = [.Save (updateTarget us user)] ∧
    (us.Update s user).err = (us.db.Save s (updateTarget us user)).2.2 ∧
    (us.Update s user).db = (us.db.Save s (updateTarget us user)).1 ∧
    (us.Update s user).user = (us.db.Save s (updateTarget us user)).2.1 ∧
    (user.Remember ≠ "" →
      (updateTarget us user).RememberHash = us.hmac.Hash user.Remember) ∧
    (user.Remember = "" → (updateTarget us user).RememberHash = user.RememberHash) ∧
    (updateTarget us user).Model = user.Model ∧
    (updateTarget us user).Name = user.Name ∧
    (updateTarget us user).Email = user.Email ∧
    (updateTarget us user).Password = user.Password ∧
    (updateTarget us user).PasswordHash = user.PasswordHash ∧
    (updateTarget us user).Remember = user.Remember := by
  by_cases h : user.Remember = ""
  · simp [UserService.Update, updateTarget, h, Call.isPersistence]
  · simp [UserService.Update, updateTarget, h, Call.isPersistence]

end models

/-! ## The statements at concrete inputs -/

namespace sample

open models http middleware

theorem lib_accepts_exactly (p hashedBytes : String)
    (h : lib.GenerateFromPassword p DefaultCost = .ok hashedBytes) (q : String) :
    lib.CompareHashAndPassword hashedBytes q =
      if q = p then none else some Error.ErrMismatchedHashAndPassword := by
  simp only [lib] at h ⊢
  split at h
  · simp at h
  · simp only [Except.ok.injEq] at h
    subst h
    by_cases hq : q = p
    · simp [hq]
    · have : ¬ ("$2a$10$" ++ p = "$2a$10$" ++ q) := by
        intro heq
        have := congrArg String.data heq
        simp only [String.data_append] at this
        exact hq (String.ext (List.append_cancel_left this)).symm
      simp [hq, this]

theorem lib_never_returns_input_head (p : String) (cost : Nat) (hashedBytes : String)
    (h : lib.GenerateFromPassword p cost = .ok hashedBytes) : ¬ hashedBytes.data <+: p.data := by
  simp only [lib] at h
  split at h
  · simp at h
  · simp only [Except.ok.injEq] at h
    subst h
    intro hp
    have hlen := hp.length_le
    rw [String.data_append, List.length_append] at hlen
    have h7 : "$2a$10$".data.length = 7 := by decide
    rw [h7] at hlen
    omega

theorem hmac_injective : Function.Injective hmac.Hash := by
  intro a b h
  have := congrArg String.data h
  simp only [hmac, String.data_append] at this
  exact String.ext (List.append_cancel_left this)

theorem Create_keeps_remember (t : memdb.MemDB) (u : User) :
    (us.db.Create t u).2.1.Remember = u.Remember ∧
    (us.db.Create t u).2.1.RememberHash = u.RememberHash := by
  show (memdb.Create t u).2.1.Remember = _ ∧ (memdb.Create t u).2.1.RememberHash = _
  unfold memdb.Create
  dsimp only
  split <;> split <;> exact ⟨rfl, rfl⟩

theorem Create_keeps_password (t : memdb.MemDB) (u : User) :
    (us.db.Create t u).2.1.Password = u.Password ∧
    (us.db.Create t u).2.1.PasswordHash = u.PasswordHash := by
  show (memdb.Create t u).2.1.Password = _ ∧ (memdb.Create t u).2.1.PasswordHash = _
  unfold memdb.Create
  dsimp only
  split <;> split <;> exact ⟨rfl, rfl⟩

theorem Authenticate_after_Create_witness :
    (us.Create lib memdb.empty user).err = none ∧
    (us.Authenticate lib (us.Create lib memdb.empty user).db "a@b.com" "secret123").err = none ∧
    (us.Authenticate lib (us.Create lib memdb.empty user).db "a@b.com" "wrong").err =
      some Error.ErrorInvalidPassword :=
  ⟨by decide,
    (Authenticate_after_Create lib hmac memdb.empty user lib_accepts_exactly (by decide)).1,
    ((Authenticate_after_Create lib hmac memdb.empty user lib_accepts_exactly (by decide)).2.2
      "wrong" (by decide)).1⟩

theorem Authenticate_outcomes_witness :
    (us.db.First memdb.empty (emailQuery "a@b.com") User.zero).2 =
      some Error.ErrRecordNotFound ∧
    us.Authenticate lib memdb.empty "a@b.com" "secret123" =
      { user := none, err := some Error.ErrorNotFound,
        calls := [.First (emailQuery "a@b.com")] } :=
  ⟨by decide, (Authenticate_outcomes lib us memdb.empty "a@b.com" "secret123").1 (by decide)⟩

/-- C3, counterexample. A password of 70 bytes is 81 bytes long once peppered;
hashing refuses it, and `Create` returns the hashing error with the plaintext
password still in the record. -/
theorem Create_keeps_password_when_hashing_fails :
    (us.Create lib memdb.empty longUser).err = some passwordTooLong ∧
    (us.Create lib memdb.empty longUser).user.Password = longUser.Password ∧
    (us.Create lib memdb.empty longUser).user.Password ≠ "" := by
  decide

theorem Create_clears_password_once_hashed_witness :
    lib.GenerateFromPassword (user.Password ++ usPasswordPepper) DefaultCost =
      .ok "$2a$10$secret123some-secret" ∧
    (us.Create lib memdb.empty user).user.Password = "" ∧
    (us.Create lib memdb.empty user).user.PasswordHash = "$2a$10$secret123some-secret" ∧
    (us.Create lib memdb.empty user).user.PasswordHash ≠ user.Password ∧
    (us.Create lib memdb.empty longUser).user = longUser :=
  ⟨rfl,
   ((Create_clears_password_once_hashed lib us memdb.empty user Create_keeps_password
      lib_never_returns_input_head).2 "$2a$10$secret123some-secret" rfl).1,
   ((Create_clears_password_once_hashed lib us memdb.empty user Create_keeps_password
      lib_never_returns_input_head).2 "$2a$10$secret123some-secret" rfl).2.1,
   ((Create_clears_password_once_hashed lib us memdb.empty user Create_keeps_password
      lib_never_returns_input_head).2 "$2a$10$secret123some-secret" rfl).2.2.1,
   ((Create_clears_password_once_hashed lib us memdb.empty longUser Create_keeps_password
      lib_never_returns_input_head).1 passwordTooLong rfl).2⟩

theorem Create_issues_remember_witness :
    user.Remember = "" ∧
    rand.RememberToken lib.entropy = .ok "AAECAwQFBgcICQoLDA0ODxAREhMUFRYXGBkaGxwdHh8=" ∧
    (us.Create lib memdb.empty user).user.Remember =
      "AAECAwQFBgcICQoLDA0ODxAREhMUFRYXGBkaGxwdHh8=" ∧
    (us.Create lib memdb.empty user).user.RememberHash =
      us.hmac.Hash (us.Create lib memdb.empty user).user.Remember ∧
    tokenUser.Remember ≠ "" ∧
    (us.Create lib memdb.empty tokenUser).user.Remember = tokenUser.Remember :=
  ⟨by decide, rfl,
    ((Create_issues_remember lib us memdb.empty user "$2a$10$secret123some-secret"
      "AAECAwQFBgcICQoLDA0ODxAREhMUFRYXGBkaGxwdHh8=" rfl (fun _ => rfl)
      (fun h => absurd (by decide) h) Create_keeps_remember).1 (by decide)).1,
    (Create_issues_remember lib us memdb.empty user "$2a$10$secret123some-secret"
      "AAECAwQFBgcICQoLDA0ODxAREhMUFRYXGBkaGxwdHh8=" rfl (fun _ => rfl)
      (fun h => absurd (by decide) h) Create_keeps_remember).2.2.1,
    by decide,
    (Create_issues_remember lib us memdb.empty tokenUser "$2a$10$hunter2some-secret"
      "T0" rfl (fun h => absurd h (by decide)) (fun _ => rfl) Create_keeps_remember).2.1
      (by decide)⟩

theorem ByRemember_after_Create_witness :
    (∀ x ∈ store.rows, ∃ t ∈ ["T0"], x.RememberHash = hmac.Hash t) ∧
    (us.Create lib store user).err = none ∧
    (us.ByRemember (us.Create lib store user).db
      (us.Create lib store user).user.Remember).err = none ∧
    (us.ByRemember (us.Create lib store user).db "gone").err = some Error.ErrorNotFound :=
  ⟨by decide, by decide,
    (ByRemember_after_Create lib hmac store user ["T0"] hmac_injective (by decide)
      (by decide)).1,
    ((ByRemember_after_Create lib hmac store user ["T0"] hmac_injective (by decide)
      (by decide)).2.2 "gone" (by decide) (by decide)).1⟩

theorem ApplyFn_redirects_to_login_witness :
    anonymous.Cookie "remember_token" = none ∧
    (mw.ApplyFn store page [] anonymous).w = [Written.Redirect "/login" 302] ∧
    (us.ByRemember store "gone").err ≠ none ∧
    (mw.ApplyFn store page [] stale).w = [Written.Redirect "/login" 302] ∧
    (mw.ApplyFn store page [] stale).next = [] :=
  ⟨by decide,
    (ApplyFn_redirects_to_login mw store page [] anonymous (Or.inl (by decide))).1,
    by decide,
    (ApplyFn_redirects_to_login mw store page [] stale
      (Or.inr ⟨{ Name := "remember_token", Value := "gone" }, by decide, by decide⟩)).1,
    (ApplyFn_redirects_to_login mw store page [] stale
      (Or.inr ⟨{ Name := "remember_token", Value := "gone" }, by decide, by decide⟩)).2.1⟩

theorem ApplyFn_admits_resolved_witness :
    (us.ByRemember store "T0").err = none ∧
    (mw.ApplyFn store page [] request).next = [([], request)] ∧
    (mw.ApplyFn store page [] request).w = page [] request :=
  ⟨by decide,
    (ApplyFn_admits_resolved mw store page [] request
      { Name := "remember_token", Value := "T0" }
      (memdb.row (withRemember us (hashed tokenUser "$2a$10$hunter2some-secret") "T0") 1)
      (by decide) (by decide) (by decide)).1,
    (ApplyFn_admits_resolved mw store page [] request
      { Name := "remember_token", Value := "T0" }
      (memdb.row (withRemember us (hashed tokenUser "$2a$10$hunter2some-secret") "T0") 1)
      (by decide) (by decide) (by decide)).2.1⟩

/-- C7, counterexample. The token `T0` resolves to user 1 in one store and to
user 2 in another; in both the wrapped handler, whatever it is, is called with
the same response writer and the same request, and answers the same: the user
`ByRemember` returned is not among what it is given. -/
theorem ApplyFn_passes_no_identity :
    (us.ByRemember store "T0").err = none ∧
    (us.ByRemember otherStore "T0").err = none ∧
    (us.ByRemember store "T0").user ≠ (us.ByRemember otherStore "T0").user ∧
    ∀ (next : HandlerFunc) (w : ResponseWriter),
      (mw.ApplyFn store next w request).next = [(w, request)] ∧
      (mw.ApplyFn otherStore next w request).next = [(w, request)] ∧
      (mw.ApplyFn store next w request).w = (mw.ApplyFn otherStore next w request).w := by
  refine ⟨by decide, by decide, by decide, ?_⟩
  intro next w
  have hc : request.Cookie "remember_token" = some { Name := "remember_token", Value := "T0" } := by
    decide
  have h1 : (mw.UserService.ByRemember store "T0").err = none := by decide
  have h2 : (mw.UserService.ByRemember otherStore "T0").err = none := by decide
  simp [RequireUser.ApplyFn, hc, h1, h2]

theorem Delete_zero_or_one_call_witness :
    (us.Delete store 0).err = some Error.ErrorInvalidID ∧
    (us.Delete store 1).calls = [.Delete (deleteTarget 1)] ∧
    (us.Delete store 1).db.rows = [] ∧
    (us.Delete store 1).db.deleted.map (fun x => (x.Email, x.Model.DeletedAt)) =
      [("c@b.com", some 0)] :=
  ⟨(Delete_zero_or_one_call us store 1).1.1,
    ((Delete_zero_or_one_call us store 1).2 (by decide)).1,
    by decide, by decide⟩

theorem Update_frame_witness :
    tokenUser.Remember ≠ "" ∧
    (updateTarget us tokenUser).RememberHash = "hmac:T0" ∧
    (updateTarget us user).RememberHash = user.RememberHash :=
  ⟨by decide,
    (Update_frame us store tokenUser).2.2.2.2.1 (by decide),
    (Update_frame us store user).2.2.2.2.2.1 (by decide)⟩

theorem Create_aborts_or_inserts_once_witness :
    lib.GenerateFromPassword (longUser.Password ++ usPasswordPepper) DefaultCost =
      .error passwordTooLong ∧
    (us.Create lib memdb.empty longUser).calls.filter Call.isPersistence = [] ∧
    rand.RememberToken libRandFails.entropy = .error entropyError ∧
    (us.Create libRandFails memdb.empty user).err = some entropyError ∧
    (us.Create libRandFails memdb.empty user).calls.filter Call.isPersistence = [] ∧
    (us.Create lib memdb.empty tokenUser).calls.filter Call.isPersistence =
      [.Create (withRemember us (hashed tokenUser "$2a$10$hunter2some-secret") "T0")] :=
  ⟨rfl,
    ((Create_aborts_or_inserts_once lib us memdb.empty longUser).1 passwordTooLong
      rfl).2.2,
    rfl,
    ((Create_aborts_or_inserts_once libRandFails us memdb.empty user).2.1
      "$2a$10$secret123some-secret" entropyError rfl (by decide) rfl).1,
    ((Create_aborts_or_inserts_once libRandFails us memdb.empty user).2.1
      "$2a$10$secret123some-secret" entropyError rfl (by decide) rfl).2.2,
    ((Create_aborts_or_inserts_once lib us memdb.empty tokenUser).2.2
      "$2a$10$hunter2some-secret" "T0" rfl (fun h => absurd h (by decide))
      (fun _ => by decide)).1⟩

end sample

